import Mathlib

/-!
Verification of the Multi-Source Engagement & Media Resolution Engine
(Facebook post/reel scrapers). Shallow embedding of the pure logic of
`src/scrapers/facebook/utils.py`, `post.py`, `reel.py` and `ai_utils.py`:
the locale-aware numeric normalizer, the monotonic signal merge, the media
signature/dedup functions, the video quality ranking, the AI-fallback merge
and the escalation orchestration.

Modelling conventions:
- Python strings are Lean `String`s, processed as `List Char`.
- Python `float(...)`/`int(...)` on the normalizer's decimal strings are
  modelled exactly (integer/fraction pair with floor); binary floating point
  rounding is not modelled. Every concrete input evaluated in this file
  yields the same integer under both semantics.
- `str.lower()` is modelled for ASCII plus the Latin-1 uppercase range
  (covers the accented keywords `tú`, `millón` used by the code).
- Python dicts holding mixed values are modelled as total functions
  `String → PVal` with default `PVal.vint 0` (matching `.get(key, 0)`).
- A Python `TypeError` escaping a block is modelled as `Except.error ()`.
-/

namespace OBScrap

/-! ### Character and string helpers (Python semantics) -/

/-- Whitespace characters recognised by Python's `str.strip` / `re \s`
(the subset that can occur in the scraped count strings). -/
def isPyWs (c : Char) : Bool :=
  c == ' ' || c == '\t' || c == '\n' || c == '\r' ||
  c == '\u000b' || c == '\u000c' || c == ' ' || c == ' ' || c == ' '

/-- `str.lower()` for ASCII and the Latin-1 uppercase range (À–Þ except ×). -/
def pyLowerChar (c : Char) : Char :=
  if 0xC0 ≤ c.toNat ∧ c.toNat ≤ 0xDE ∧ c.toNat ≠ 0xD7 then
    Char.ofNat (c.toNat + 0x20)
  else
    c.toLower

/-- Is `pre` a prefix of `l`? -/
def isPrefixList : List Char → List Char → Bool
  | [], _ => true
  | _ :: _, [] => false
  | a :: as, b :: bs => a == b && isPrefixList as bs

/-- Does `needle` occur as a contiguous substring of `hay`
(Python `needle in hay`)? -/
def listContains (hay needle : List Char) : Bool :=
  match hay with
  | [] => needle.isEmpty
  | _ :: t => isPrefixList needle hay || listContains t needle

/-- Is `suf` a suffix of `l` (Python `str.endswith`)? -/
def isSuffixList (suf l : List Char) : Bool :=
  isPrefixList suf.reverse l.reverse

/-- Python `str.strip()`. -/
def pyStrip (l : List Char) : List Char :=
  ((l.dropWhile isPyWs).reverse.dropWhile isPyWs).reverse

/-- Digits of a decimal string to a natural number (`int(...)` on digits). -/
def digitsToNat (l : List Char) : Nat :=
  l.foldl (fun a c => a * 10 + (c.toNat - '0'.toNat)) 0

/-- Split a character list on a separator (Python `str.split(sep)`);
always returns at least one (possibly empty) part. -/
def splitChar (sep : Char) : List Char → List (List Char)
  | [] => [[]]
  | c :: t =>
    match splitChar sep t with
    | [] => if c == sep then [[], []] else [[c]]
    | h :: r => if c == sep then [] :: h :: r else (c :: h) :: r

/-! ### `_normalize_count` (utils.py lines 89-148) -/

/-- Addend keywords checked first (`added_count = 1` branch). -/
def addOneKeywords : List String := ["tú y ", "usted y ", "you and "]

/-- Addend keywords of the `elif` (`added_count = 2` branch). -/
def addTwoKeywords : List String := ["tú, ", "usted, ", "you, "]

/-- The addend derived from `text_context` (utils.py lines 96-102):
1 when the lowered context contains a "you and …" keyword, else 2 when it
contains a "you, …" keyword, else 0. -/
def addendOf (ctx : Option String) : Nat :=
  match ctx with
  | none => 0
  | some t =>
    if t = "" then 0
    else
      let low := t.data.map pyLowerChar
      if addOneKeywords.any (fun kw => listContains low kw.data) then 1
      else if addTwoKeywords.any (fun kw => listContains low kw.data) then 2
      else 0

/-- Million-valued suffixes, in the order the code tries them. -/
def millionSuffixes : List String := ["millones", "million", "millón", "millon", "mill"]

/-- Thousand-valued spelled suffixes. -/
def thousandSuffixes : List String := ["mil", "mille"]

/-- Strip the first suffix of `sufs` that matches (the `for … break` loop). -/
def stripFirstSuffix (s : List Char) : List String → List Char
  | [] => s
  | x :: rest =>
    if isSuffixList x.data s then s.take (s.length - x.data.length)
    else stripFirstSuffix s rest

/-- Multiplier detection (utils.py lines 107-129): spelled millions, spelled
thousands, `k`, then `m`; returns the multiplier and the stripped string. -/
def multDetect (s : List Char) : Nat × List Char :=
  if millionSuffixes.any (fun x => isSuffixList x.data s) then
    (1000000, stripFirstSuffix s millionSuffixes)
  else if thousandSuffixes.any (fun x => isSuffixList x.data s) then
    (1000, stripFirstSuffix s thousandSuffixes)
  else if isSuffixList ['k'] s then (1000, s.take (s.length - 1))
  else if isSuffixList ['m'] s then (1000000, s.take (s.length - 1))
  else (1, s)

/-- The multiple-dot fixup (utils.py lines 137-139): when more than one `.`
remains, all but the last are dropped as grouping separators. -/
def fixDots (s : List Char) : List Char :=
  if s.count '.' > 1 then
    match (splitChar '.' s).reverse with
    | [] => s
    | last :: restRev => (restRev.reverse).foldr (· ++ ·) [] ++ '.' :: last
  else s

/-- Python `float(s)` on the decimal strings reachable here, as an exact
integer/fraction-length pair: `some (num, scale)` means the value
`num / 10 ^ scale`. Accepts `digits`, `digits.digits`, `.digits`, `digits.`;
anything else (no digit, several dots, foreign characters) fails. -/
def parseDecimal (s : List Char) : Option (Nat × Nat) :=
  if s.any (fun c => ¬ (c.isDigit || c == '.')) then none
  else
    match splitChar '.' s with
    | [intp] => if intp.isEmpty then none else some (digitsToNat intp, 0)
    | [intp, fracp] =>
      if intp.isEmpty && fracp.isEmpty then none
      else some (digitsToNat intp * 10 ^ fracp.length + digitsToNat fracp, fracp.length)
    | _ => none

/-- `_normalize_count(value, text_context)` (utils.py lines 89-148).
Strips, computes the context addend, removes whitespace, lowers, detects a
multiplier suffix, folds separators, parses the decimal and truncates
`num * mult`; on parse failure falls back to the digits-only path;
returns `none` when no digit survives. -/
def normalizeCount (value : String) (ctx : Option String) : Option Nat :=
  let s0 := pyStrip value.data
  if s0.isEmpty then none
  else
    let added := addendOf ctx
    let s1 := (s0.filter (fun c => ¬ isPyWs c)).map pyLowerChar
    let (mult, s2) := multDetect s1
    let s3 := (s2.map (fun c => if c == ',' then '.' else c)).filter (fun c => c ≠ ' ')
    let s4 := fixDots s3
    match parseDecimal s4 with
    | some (num, scale) => some (num * mult / 10 ^ scale + added)
    | none =>
      let digits := s4.filter Char.isDigit
      if digits.isEmpty then none else some (digitsToNat digits + added)

/-! ### The reel-scraper signal merge (reel.py lines 350-419)

`scraped_data.get(metric)` is an `Option String` slot holding the raw text
of the best signal so far.  Each new extracted raw signal runs the code's
update: store it if the slot is falsy (`if not curr`), otherwise compare
`_normalize_count(new) > _normalize_count(curr)` — a comparison that raises
`TypeError` (modelled as `Except.error ()`) when either side is `None`,
which the layer-level `except` swallows, dropping the rest of the layer's
signals. -/

/-- Normalized value of a raw signal, 0 when normalization fails
(the value the final `_count` field receives for this raw text). -/
def normValue (s : String) : Nat := (normalizeCount s none).getD 0

/-- One merge update of the reel scraper (e.g. reel.py lines 354-358). -/
def reelStep (slot : Option String) (sig : String) : Except Unit (Option String) :=
  match slot with
  | none => .ok (some sig)
  | some curr =>
    if curr = "" then .ok (some sig)
    else
      match normalizeCount sig none, normalizeCount curr none with
      | some n, some c => .ok (if c < n then some sig else some curr)
      | _, _ => .error ()

/-- Fold of `reelStep` over a signal sequence; the Boolean records whether a
`TypeError` aborted the loop (the code's layer `except` then keeps the slot
as is and the remaining signals are never merged). -/
def reelMergeRun : Option String → List String → Option String × Bool
  | slot, [] => (slot, false)
  | slot, s :: rest =>
    match reelStep slot s with
    | .ok slot2 => reelMergeRun slot2 rest
    | .error _ => (slot, true)

/-- The metric count the finalization derives from a slot (reel.py lines
553-559 and 719-722): 0 when the slot is empty/falsy or fails to
normalize, else the normalized value. -/
def slotValue : Option String → Nat
  | none => 0
  | some r => if r = "" then 0 else (normalizeCount r none).getD 0

/-- The resolved metric value after feeding a signal sequence into an empty
record. -/
def reelResolved (sigs : List String) : Nat :=
  slotValue (reelMergeRun none sigs).1

/-- Invariant of merge slots: a stored raw signal is non-empty and
normalizes. -/
def SlotOk (slot : Option String) : Prop :=
  ∀ r, slot = some r → r ≠ "" ∧ (normalizeCount r none).isSome = true

theorem normalizeCount_isSome_ne_empty {s : String}
    (h : (normalizeCount s none).isSome = true) : s ≠ "" := by
  intro he
  subst he
  simp [normalizeCount, pyStrip] at h

theorem slotValue_some {r : String} (hne : r ≠ "")
    (hn : normalizeCount r none = some (normValue r)) :
    slotValue (some r) = normValue r := by
  simp [slotValue, hne, hn]

theorem reelStep_ok (slot : Option String) (s : String) (hs : SlotOk slot)
    (h : (normalizeCount s none).isSome = true) :
    ∃ slot2, reelStep slot s = .ok slot2 ∧ SlotOk slot2 ∧
      slotValue slot2 = max (slotValue slot) (normValue s) := by
  obtain ⟨n, hn⟩ := Option.isSome_iff_exists.mp h
  have hval : normValue s = n := by simp [normValue, hn]
  have hs_ne : s ≠ "" := normalizeCount_isSome_ne_empty h
  have hns : normalizeCount s none = some (normValue s) := by rw [hval]; exact hn
  match slot with
  | none =>
    refine ⟨some s, rfl, ?_, ?_⟩
    · intro r hr
      cases hr
      exact ⟨hs_ne, h⟩
    · rw [slotValue_some hs_ne hns]
      simp [slotValue]
  | some curr =>
    obtain ⟨hc_ne, hc⟩ := hs curr rfl
    obtain ⟨c, hcv⟩ := Option.isSome_iff_exists.mp hc
    have hcval : slotValue (some curr) = c := by simp [slotValue, hc_ne, hcv]
    by_cases hlt : c < n
    · refine ⟨some s, ?_, ?_, ?_⟩
      · simp [reelStep, hc_ne, hn, hcv, hlt]
      · intro r hr
        cases hr
        exact ⟨hs_ne, h⟩
      · rw [slotValue_some hs_ne hns, hcval, hval]
        omega
    · refine ⟨some curr, ?_, hs, ?_⟩
      · simp [reelStep, hc_ne, hn, hcv, hlt]
      · rw [hcval, hval]
        omega

theorem reelMergeRun_ok (sigs : List String) :
    ∀ slot, (∀ s ∈ sigs, (normalizeCount s none).isSome = true) → SlotOk slot →
    (reelMergeRun slot sigs).2 = false ∧
    slotValue (reelMergeRun slot sigs).1 =
      sigs.foldl (fun a s => max a (normValue s)) (slotValue slot) := by
  induction sigs with
  | nil => intro slot _ _; exact ⟨rfl, rfl⟩
  | cons s rest ih =>
    intro slot hall hs
    obtain ⟨slot2, hstep, hok2, hval2⟩ :=
      reelStep_ok slot s hs (hall s (List.mem_cons_self s rest))
    have hrest : ∀ t ∈ rest, (normalizeCount t none).isSome = true :=
      fun t ht => hall t (List.mem_cons_of_mem s ht)
    have := ih slot2 hrest hok2
    simp only [reelMergeRun, hstep, List.foldl_cons]
    rw [← hval2]
    exact this

theorem foldl_maxNorm_perm {l₁ l₂ : List String} (p : l₁.Perm l₂) :
    ∀ a : Nat, l₁.foldl (fun a s => max a (normValue s)) a =
      l₂.foldl (fun a s => max a (normValue s)) a := by
  induction p with
  | nil => intro a; rfl
  | cons x _ ih => intro a; simp only [List.foldl_cons]; exact ih _
  | swap x y l => intro a; simp only [List.foldl_cons, Nat.max_right_comm]
  | trans _ _ ih1 ih2 => intro a; exact (ih1 a).trans (ih2 a)

/-- C1 (amended): when every raw signal in the sequence normalizes, the reel
merge loop never aborts, the resolved metric equals the maximum normalized
value across the sequence (0 for the empty sequence), the result is
invariant under permutation of the signals, and a single signal whose
normalized value does not exceed the current resolved value never changes
the resolved value.  (As originally stated the claim also covered
non-normalizing signals; see the counterexample theorem.) -/
theorem reel_resolver_monotonic (sigs : List String)
    (h : ∀ s ∈ sigs, (normalizeCount s none).isSome = true) :
    (reelMergeRun none sigs).2 = false ∧
    reelResolved sigs = (sigs.map normValue).foldl max 0 ∧
    (∀ sigs2, sigs.Perm sigs2 → reelResolved sigs2 = reelResolved sigs) ∧
    (∀ slot s, SlotOk slot → (normalizeCount s none).isSome = true →
      normValue s ≤ slotValue slot →
      ∃ slot2, reelStep slot s = .ok slot2 ∧ slotValue slot2 = slotValue slot) := by
  have hemp : SlotOk none := by intro r hr; cases hr
  obtain ⟨hab, hval⟩ := reelMergeRun_ok sigs none h hemp
  refine ⟨hab, ?_, ?_, ?_⟩
  · rw [reelResolved, hval, List.foldl_map]
    rfl
  · intro sigs2 hperm
    have h2 : ∀ s ∈ sigs2, (normalizeCount s none).isSome = true :=
      fun s hs => h s (hperm.mem_iff.mpr hs)
    obtain ⟨_, hval2⟩ := reelMergeRun_ok sigs2 none h2 hemp
    rw [reelResolved, hval2, reelResolved, hval]
    exact foldl_maxNorm_perm hperm.symm (slotValue none)
  · intro slot s hok hsome hle
    obtain ⟨slot2, hstep, _, hv⟩ := reelStep_ok slot s hok hsome
    exact ⟨slot2, hstep, by rw [hv]; omega⟩

/-- C1 counterexample: the raw signal `","` is extracted by the shares/
comments patterns from junk text but fails to normalize
(`float(".")` raises, no digits remain).  Fed before a valid signal it is
stored by the `if not curr` branch; the next comparison
`_normalize_count("5") > _normalize_count(",")` raises `TypeError`, the
layer handler drops the remaining signals and the metric resolves to 0 —
while the reversed order resolves to 5.  The resolved value is therefore
order-dependent and differs from the maximum normalized value. -/
theorem reel_resolver_order_dependent :
    reelResolved [",", "5"] = 0 ∧ reelResolved ["5", ","] = 5 ∧
    (reelMergeRun none [",", "5"]).2 = true := by decide

/-- Witness for `reel_resolver_monotonic` at a concrete signal sequence. -/
theorem reel_resolver_monotonic_witness :
    (∀ s ∈ (["250", "1,5 K", "48"] : List String),
      (normalizeCount s none).isSome = true) ∧
    ((reelMergeRun none ["250", "1,5 K", "48"]).2 = false ∧
     reelResolved ["250", "1,5 K", "48"] =
       ((["250", "1,5 K", "48"] : List String).map normValue).foldl max 0 ∧
     (∀ sigs2, (["250", "1,5 K", "48"] : List String).Perm sigs2 →
       reelResolved sigs2 = reelResolved ["250", "1,5 K", "48"]) ∧
     (∀ slot s, SlotOk slot → (normalizeCount s none).isSome = true →
       normValue s ≤ slotValue slot →
       ∃ slot2, reelStep slot s = .ok slot2 ∧ slotValue slot2 = slotValue slot)) :=
  ⟨by decide, reel_resolver_monotonic ["250", "1,5 K", "48"] (by decide)⟩

/-! ### Post-type classification (post.py lines 361-371 and 549-558) -/

/-- The layer-3 classification (post.py lines 362-369): uses the
deduplicated DOM image count, the photo-link count, the gallery "+N"
indicator and the presence of `og:image`. -/
def layer3PostType (has_video : Bool) (image_count photo_link_count gallery_plus : Nat)
    (og_image : Bool) : String :=
  if has_video then "video"
  else if image_count > 1 || photo_link_count > 1 || gallery_plus > 0 then "multi_image"
  else if image_count == 1 || photo_link_count == 1 || og_image then "single_image"
  else "text"

/-- The final recomputation (post.py lines 550-558) over the final
deduplicated image list: when no video is present and the final image count
is 0, the previously stored `post_type` is kept (only a missing/falsy value
becomes `"text"`). -/
def finalPostType (has_video : Bool) (final_image_count : Nat) (prior : Option String) :
    Option String :=
  if has_video then some "video"
  else if final_image_count > 1 then some "multi_image"
  else if final_image_count == 1 then some "single_image"
  else
    match prior with
    | none => some "text"
    | some p => if p = "" then some "text" else some p

/-- The classification rule exactly as §4.7 of the spec words it (defined
for refinement comparison with the functions above, not from the source). -/
def postTypeRuleSpec (video_present : Bool) (image_count : Nat) : String :=
  if video_present then "video"
  else if image_count > 1 then "multi_image"
  else if image_count == 1 then "single_image"
  else "text"

/-- C6 counterexample: with no video, no images, but two distinct photo
links found in the DOM, layer 3 stores `"multi_image"`; the final
recomputation over the empty final media list keeps that value, while the
§4.7 rule applied to the final media set yields `"text"` — the finalized
`post_type` does not equal the rule applied to the final media set. -/
theorem post_type_rule_cex :
    finalPostType false 0 (some (layer3PostType false 0 2 0 false)) = some "multi_image" ∧
    postTypeRuleSpec false 0 = "text" ∧ ("multi_image" : String) ≠ "text" := by decide

/-- C6 (amended): the finalized `post_type` equals the §4.7 priority rule on
the final media set whenever a video is present or the final image count is
at least 1; the layer-3 recomputation agrees with the rule whenever the
auxiliary DOM signals (photo links, gallery indicator, og:image) are
absent; but when the final media list is empty and no video is present the
final recomputation keeps the previously stored value (which layer 3 may
have derived from photo links, a gallery indicator or og:image), so the
finalized value can differ from the rule on the final media set. -/
theorem post_type_rule_amended :
    (∀ v n prior, v = true ∨ 1 ≤ n →
      finalPostType v n prior = some (postTypeRuleSpec v n)) ∧
    (∀ v n, layer3PostType v n 0 0 false = postTypeRuleSpec v n) ∧
    (∀ p, p ≠ "" → finalPostType false 0 (some p) = some p) := by
  refine ⟨?_, ?_, ?_⟩
  · intro v n prior h
    cases v with
    | true => simp [finalPostType, postTypeRuleSpec]
    | false =>
      have hn : 1 ≤ n := h.resolve_left (by simp)
      simp only [finalPostType, postTypeRuleSpec, if_neg (by simp : ¬ (false = true))]
      rcases Nat.lt_or_ge 1 n with h1 | h1
      · simp [h1]
      · have : n = 1 := le_antisymm h1 hn
        simp [this]
  · intro v n
    cases v with
    | true => simp [layer3PostType, postTypeRuleSpec]
    | false =>
      simp only [layer3PostType, postTypeRuleSpec]
      rcases Nat.lt_trichotomy n 1 with h1 | h1 | h1
      · have : n = 0 := by omega
        subst this
        simp
      · simp [h1]
      · simp [h1]
  · intro p hp
    simp [finalPostType, hp]

/-- Witness for `post_type_rule_amended` at concrete inputs. -/
theorem post_type_rule_amended_witness :
    ((true = true ∨ 1 ≤ (0 : Nat)) ∧
      finalPostType true 0 none = some (postTypeRuleSpec true 0)) ∧
    layer3PostType false 2 0 0 false = postTypeRuleSpec false 2 ∧
    (("multi_image" : String) ≠ "" ∧
      finalPostType false 0 (some "multi_image") = some "multi_image") :=
  ⟨⟨Or.inl rfl, post_type_rule_amended.1 true 0 none (Or.inl rfl)⟩,
   post_type_rule_amended.2.1 false 2,
   ⟨by decide, post_type_rule_amended.2.2 "multi_image" (by decide)⟩⟩

/-! ### The post scraper's dead visible-text layer (post.py lines 494-506) -/

/-- The names bound at module level in post.py: the imports of lines 1-18
plus the two module-level definitions.
`_extract_engagement_from_visible_text` is absent — post.py's
`from .utils import (...)` list (lines 8-18) does not include it and the
module defines no such name (nor is it a Python builtin). -/
def postPyGlobalNames : List String :=
  ["asyncio", "re", "_html", "datetime", "Dict", "Any", "Optional",
   "FacebookBaseScraper",
   "_extract_reactions_count_from_text", "_extract_comments_count_from_text",
   "_extract_shares_count_from_text", "_extract_views_count_from_text",
   "_extract_reactions_count_from_html", "_extract_engagement_from_html",
   "_extract_images_from_html", "_deduplicate_fb_images", "_normalize_count",
   "OG_TAGS", "FacebookPostScraper"]

/-- Layer 5b of the post scraper (post.py lines 494-506): guarded by
`if page_html:`, the try-block's first statement calls
`_extract_engagement_from_visible_text(page_html)`.  If that name does not
resolve in the module namespace `env`, the call raises `NameError` before
any mutation and the `except Exception` handler only logs, leaving the
record unchanged.  `body` stands for the merge the block would perform if
the name resolved. -/
def layer5bVisibleText {α : Type} (env : List String) (body : α → String → α)
    (r : α) (page_html : String) : α :=
  if page_html = "" then r
  else if env.contains "_extract_engagement_from_visible_text" then body r page_html
  else r

/-- C10: in post.py's namespace the visible-text layer never modifies the
record — for any non-empty page HTML and whatever the block would have
computed, the record after layer 5b is exactly the record before it,
because `_extract_engagement_from_visible_text` is not among post.py's
module-level names. -/
theorem post_layer5b_no_effect {α : Type} (body : α → String → α) (r : α)
    (page_html : String) (h : page_html ≠ "") :
    layer5bVisibleText postPyGlobalNames body r page_html = r := by
  have hc : ("_extract_engagement_from_visible_text" : String) ∉ postPyGlobalNames := by
    decide
  simp [layer5bVisibleText, h, hc]

/-- Witness for `post_layer5b_no_effect`: a body that would increment the
record leaves it unchanged. -/
theorem post_layer5b_no_effect_witness :
    (("<html><body>1 comment</body></html>" : String) ≠ "") ∧
    layer5bVisibleText postPyGlobalNames (fun (n : Nat) _ => n + 1) 7
      "<html><body>1 comment</body></html>" = 7 :=
  ⟨by decide, post_layer5b_no_effect _ 7 _ (by decide)⟩

/-- C2 counterexample: `_normalize_count("1.200")` reads the single
separator as a decimal point (`float("1.200")` is `1.2`, truncated to 1),
not as a thousands separator yielding the table's 1200; and a
"tú y 2 más"-style context hits the `"tú y "` keyword branch, which adds 1,
not the table's 2. -/
theorem normalize_table_cex :
    normalizeCount "1.200" none = some 1 ∧ (1 : Nat) ≠ 1200 ∧
    normalizeCount "2" (some "Tú y 2 más") = some 3 ∧ (3 : Nat) ≠ 2 + 2 := by decide

/-- C2 (amended): the fixed test table with the values the normalizer
actually produces — `"1,5 K" → 1500`, `"3 millones" → 3000000`,
`"1.200" → 1` (a lone separator is a decimal point), a "tú y 2 más"-style
context adds 1, and a "tú, X y N más"-style context adds 2. -/
theorem normalize_table_amended :
    normalizeCount "1,5 K" none = some 1500 ∧
    normalizeCount "3 millones" none = some 3000000 ∧
    normalizeCount "1.200" none = some 1 ∧
    normalizeCount "2" (some "Tú y 2 más") = some 3 ∧
    normalizeCount "2" (some "Tú, Ana y 2 más") = some 4 := by decide

/-! ### Image signatures and deduplication (utils.py lines 249-278) -/

/-- Last segment of a character split (Python `s.split(sep)[-1]`). -/
def lastSegment (sep : Char) (l : List Char) : List Char :=
  l.foldl (fun acc c => if c == sep then [] else acc ++ [c]) []

/-- Maximal runs of consecutive digits; `cur` is the current run, reversed. -/
def digitRunsAux : List Char → List Char → List (List Char)
  | cur, [] => if cur.isEmpty then [] else [cur.reverse]
  | cur, c :: t =>
    if c.isDigit then digitRunsAux (c :: cur) t
    else if cur.isEmpty then digitRunsAux [] t
    else cur.reverse :: digitRunsAux [] t

/-- Maximal runs of consecutive digits of a string — what
`re.findall(r'(\d{8,})', …)` matches, before the length-8 filter. -/
def digitRuns (l : List Char) : List (List Char) := digitRunsAux [] l

/-- `re.sub(r'\.[a-z0-9]+$', '', filename, flags=IGNORECASE)`: drop a final
`.ext` when the extension is a non-empty alphanumeric run. -/
def stripExt (fn : List Char) : List Char :=
  let rev := fn.reverse
  let ext := rev.takeWhile (fun c => c ≠ '.')
  if ext.length < rev.length ∧ ¬ ext.isEmpty ∧ ext.all Char.isAlphanum then
    (rev.drop (ext.length + 1)).reverse
  else fn

/-- `_get_fb_image_signature` (utils.py lines 249-267): strip the query
string, take the filename, extract all digit runs of length ≥ 8 and join
them with `"."`; when there is none, fall back to the extension-stripped
filename. -/
def fbSig (url : String) : String :=
  let base := url.data.takeWhile (fun c => c ≠ '?')
  let filename := lastSegment '/' base
  let ids := (digitRuns filename).filter (fun r => 8 ≤ r.length)
  if ids.isEmpty then String.mk (stripExt filename)
  else String.intercalate "." (ids.map fun r => String.mk r)

/-- The loop body of `_deduplicate_fb_images` (utils.py lines 271-277);
`seen` models the `seen_sigs` set. -/
def dedupAux (seen : List String) : List String → List String
  | [] => []
  | u :: rest =>
    if fbSig u ∈ seen then dedupAux seen rest
    else u :: dedupAux (fbSig u :: seen) rest

/-- `_deduplicate_fb_images` (utils.py lines 269-278). -/
def deduplicateFbImages (urls : List String) : List String := dedupAux [] urls

theorem dedupAux_sig_not_seen :
    ∀ (l : List String) (seen : List String) (u : String),
    u ∈ dedupAux seen l → fbSig u ∉ seen := by
  intro l
  induction l with
  | nil => intro seen u hu; simp [dedupAux] at hu
  | cons v rest ih =>
    intro seen u hu
    by_cases hv : fbSig v ∈ seen
    · rw [dedupAux, if_pos hv] at hu
      exact ih seen u hu
    · rw [dedupAux, if_neg hv] at hu
      rcases List.mem_cons.mp hu with rfl | hu
      · exact hv
      · have := ih (fbSig v :: seen) u hu
        exact fun hin => this (List.mem_cons_of_mem _ hin)

theorem dedupAux_pairwise (l : List String) :
    ∀ seen, (dedupAux seen l).Pairwise (fun a b => fbSig a ≠ fbSig b) := by
  induction l with
  | nil => intro seen; simp [dedupAux]
  | cons v rest ih =>
    intro seen
    by_cases hv : fbSig v ∈ seen
    · rw [dedupAux, if_pos hv]; exact ih seen
    · rw [dedupAux, if_neg hv]
      refine List.Pairwise.cons ?_ (ih (fbSig v :: seen))
      intro b hb heq
      exact dedupAux_sig_not_seen rest (fbSig v :: seen) b hb (heq ▸ List.mem_cons_self _ _)

theorem dedupAux_eq_self :
    ∀ (l : List String) (seen : List String),
    l.Pairwise (fun a b => fbSig a ≠ fbSig b) → (∀ u ∈ l, fbSig u ∉ seen) →
    dedupAux seen l = l := by
  intro l
  induction l with
  | nil => intro seen _ _; rfl
  | cons v rest ih =>
    intro seen hpair hseen
    have hv : fbSig v ∉ seen := hseen v (List.mem_cons_self _ _)
    rw [dedupAux, if_neg hv]
    congr 1
    refine ih (fbSig v :: seen) (List.Pairwise.of_cons hpair) ?_
    intro u hu hmem
    rcases List.mem_cons.mp hmem with h | h
    · exact (List.pairwise_cons.mp hpair).1 u hu h.symm
    · exact hseen u (List.mem_cons_of_mem _ hu) h

theorem dedupAux_find :
    ∀ (l : List String) (seen : List String) (u : String),
    u ∈ dedupAux seen l → l.find? (fun w => fbSig w == fbSig u) = some u := by
  intro l
  induction l with
  | nil => intro seen u hu; simp [dedupAux] at hu
  | cons v rest ih =>
    intro seen u hu
    by_cases hv : fbSig v ∈ seen
    · rw [dedupAux, if_pos hv] at hu
      have hnot := dedupAux_sig_not_seen rest seen u hu
      have hfalse : (fbSig v == fbSig u) = false := by
        rw [beq_eq_false_iff_ne]
        intro heq
        exact hnot (heq ▸ hv)
      simp only [List.find?, hfalse]
      exact ih seen u hu
    · rw [dedupAux, if_neg hv] at hu
      rcases List.mem_cons.mp hu with rfl | hu
      · simp only [List.find?, beq_self_eq_true]
      · have hnot := dedupAux_sig_not_seen rest (fbSig v :: seen) u hu
        have hfalse : (fbSig v == fbSig u) = false := by
          rw [beq_eq_false_iff_ne]
          intro heq
          exact hnot (heq ▸ List.mem_cons_self _ _)
        simp only [List.find?, hfalse]
        exact ih (fbSig v :: seen) u hu

/-- C8: image dedup is idempotent — applying `_deduplicate_fb_images` to
its own output returns that output unchanged. -/
theorem image_dedup_idempotent (urls : List String) :
    deduplicateFbImages (deduplicateFbImages urls) = deduplicateFbImages urls :=
  dedupAux_eq_self _ [] (dedupAux_pairwise urls [])
    (fun _ _ h => List.not_mem_nil _ h)

/-- C9: the deduplicated media list contains no two URLs with the same
signature, every kept URL is the first element of the input carrying its
signature, and three URLs sharing the same long numeric ID at different
sizes collapse to exactly the first one. -/
theorem media_signature_unique :
    (∀ urls : List String,
      (deduplicateFbImages urls).Pairwise (fun a b => fbSig a ≠ fbSig b) ∧
      ∀ u ∈ deduplicateFbImages urls,
        urls.find? (fun w => fbSig w == fbSig u) = some u) ∧
    deduplicateFbImages
      ["https://scontent-mad1-1.xx.fbcdn.net/v/t39.30808-6/461234567890123_45819_s320x320.jpg?stp=dst-jpg&ccb=1-7",
       "https://scontent-mad1-1.xx.fbcdn.net/v/t39.30808-6/461234567890123_45819_s720x720.jpg?stp=dst-jpg&ccb=1-7",
       "https://scontent-mad1-1.xx.fbcdn.net/v/t39.30808-6/461234567890123_45819_n.jpg?_nc_cat=108"] =
      ["https://scontent-mad1-1.xx.fbcdn.net/v/t39.30808-6/461234567890123_45819_s320x320.jpg?stp=dst-jpg&ccb=1-7"] :=
  ⟨fun urls => ⟨dedupAux_pairwise urls [],
    fun u hu => dedupAux_find urls [] u hu⟩, by decide⟩

/-! ### Video quality ranking (reel.py lines 495-548) -/

/-- Leftmost match of `[&?]tag=([^&]+)` (reel.py line 514). -/
def findTagParam : List Char → Option (List Char)
  | [] => none
  | c :: t =>
    if (c == '&' || c == '?') && isPrefixList "tag=".data t then
      let cap := (t.drop 4).takeWhile (fun d => d ≠ '&')
      if cap.isEmpty then findTagParam t else some cap
    else findTagParam t

/-- Leftmost match of `[&?]bitrate=(\d+)` (reel.py line 539). -/
def findBitrateParam : List Char → Option (List Char)
  | [] => none
  | c :: t =>
    if (c == '&' || c == '?') && isPrefixList "bitrate=".data t then
      let cap := (t.drop 8).takeWhile Char.isDigit
      if cap.isEmpty then findBitrateParam t else some cap
    else findBitrateParam t

/-- Characters of the class `[A-Za-z0-9_+/=%-]` of the `efg` parameter. -/
def isEfgChar (c : Char) : Bool :=
  c.isAlphanum || c == '_' || c == '+' || c == '/' || c == '=' || c == '%' || c == '-'

/-- Leftmost match of `[&?]efg=([A-Za-z0-9_+/=%-]+)` (reel.py line 519). -/
def findEfgParam : List Char → Option (List Char)
  | [] => none
  | c :: t =>
    if (c == '&' || c == '?') && isPrefixList "efg=".data t then
      let cap := (t.drop 4).takeWhile isEfgChar
      if cap.isEmpty then findEfgParam t else some cap
    else findEfgParam t

/-- Match of `(\d{3,4})p` at the start of the list (greedy: four digits
followed by `p`, else three digits followed by `p`). -/
def resTagAt (l : List Char) : Option (List Char) :=
  let run := l.takeWhile Char.isDigit
  if 4 ≤ run.length ∧ (l.drop 4).head? = some 'p' then some (l.take 4)
  else if 3 ≤ run.length ∧ (l.drop 3).head? = some 'p' then some (l.take 3)
  else none

/-- Leftmost match of `(\d{3,4})p` (reel.py line 534). -/
def findResTag : List Char → Option (List Char)
  | [] => none
  | c :: t =>
    match resTagAt (c :: t) with
    | some d => some d
    | none => findResTag t

/-- `quality_score` (reel.py lines 509-543): resolution number from the
plain `tag=` parameter or from the decoded `efg` side channel's encode-tag
field, else `bitrate // 10000`, else 0.  The base64/URL/JSON decoding chain
of `efg` (lines 521-530: `urllib.parse.unquote`, padding, `base64.b64decode`,
`json.loads`, `vencode_tag`/`encode_tag` lookup) runs through external
library calls and is abstracted as the oracle `efgDecode`: `some tag` is a
successful decode (the code then overwrites `tag_str`, possibly with `""`),
`none` is the swallowed exception (any `tag=` value is kept). -/
def qualityScore (efgDecode : String → Option String) (u : String) : Nat :=
  let tag0 := (findTagParam u.data).getD []
  let tagStr :=
    match findEfgParam u.data with
    | none => tag0
    | some e =>
      match efgDecode (String.mk e) with
      | some t => t.data
      | none => tag0
  match findResTag tagStr with
  | some d => digitsToNat d
  | none =>
    match findBitrateParam u.data with
    | some d => digitsToNat d / 10000
    | none => 0

/-- Stable insertion for a descending sort (ties keep original order),
modelling Python's stable `list.sort(key=…, reverse=True)`. -/
def insertDesc (score : String → Nat) (x : String) : List String → List String
  | [] => [x]
  | y :: t => if score y ≤ score x then x :: y :: t else y :: insertDesc score x t

/-- Stable descending sort by score. -/
def sortByScoreDesc (score : String → Nat) : List String → List String
  | [] => []
  | x :: t => insertDesc score x (sortByScoreDesc score t)

/-- `all_mp4.sort(key=quality_score, reverse=True)` followed by
`scraped_data["video_url"] = all_mp4[0]` (reel.py lines 545-546). -/
def videoPrimary (efgDecode : String → Option String) (l : List String) : Option String :=
  (sortByScoreDesc (qualityScore efgDecode) l).head?

/-- `scraped_data["video_url_all"] = all_mp4[:5]` (reel.py line 547). -/
def videoUrlAll (efgDecode : String → Option String) (l : List String) : List String :=
  (sortByScoreDesc (qualityScore efgDecode) l).take 5

theorem insertDesc_perm (score : String → Nat) (x : String) :
    ∀ l, (insertDesc score x l).Perm (x :: l) := by
  intro l
  induction l with
  | nil => exact List.Perm.refl _
  | cons y t ih =>
    rw [insertDesc]
    by_cases h : score y ≤ score x
    · rw [if_pos h]
    · rw [if_neg h]
      exact (ih.cons y).trans (List.Perm.swap x y t)

theorem insertDesc_pairwise (score : String → Nat) (x : String) :
    ∀ l, l.Pairwise (fun a b => score b ≤ score a) →
    (insertDesc score x l).Pairwise (fun a b => score b ≤ score a) := by
  intro l
  induction l with
  | nil => intro _; simp [insertDesc]
  | cons y t ih =>
    intro h
    obtain ⟨hy, ht⟩ := List.pairwise_cons.mp h
    rw [insertDesc]
    by_cases hle : score y ≤ score x
    · rw [if_pos hle]
      refine List.Pairwise.cons ?_ h
      intro b hb
      rcases List.mem_cons.mp hb with rfl | hb
      · exact hle
      · exact le_trans (hy b hb) hle
    · rw [if_neg hle]
      refine List.Pairwise.cons ?_ (ih ht)
      intro b hb
      have hb2 := (insertDesc_perm score x t).mem_iff.mp hb
      rcases List.mem_cons.mp hb2 with rfl | hb2
      · exact le_of_lt (Nat.lt_of_not_le hle)
      · exact hy b hb2

theorem sortByScoreDesc_perm (score : String → Nat) :
    ∀ l, (sortByScoreDesc score l).Perm l := by
  intro l
  induction l with
  | nil => exact List.Perm.refl _
  | cons x t ih =>
    rw [sortByScoreDesc]
    exact (insertDesc_perm score x _).trans (ih.cons x)

theorem sortByScoreDesc_pairwise (score : String → Nat) :
    ∀ l, (sortByScoreDesc score l).Pairwise (fun a b => score b ≤ score a) := by
  intro l
  induction l with
  | nil => simp [sortByScoreDesc]
  | cons x t ih => exact insertDesc_pairwise score x _ ih

/-- C7: with the `quality_score` of reel.py (for any outcome of the `efg`
decoding oracle), the retained primary video URL is a candidate of maximal
quality score, the retained list is the score-descending stable sort
truncated to at most 5 entries (the primary plus up to 4 alternates), all
drawn from the candidate list. -/
theorem video_quality_ranking (efgDecode : String → Option String)
    (l : List String) (hne : l ≠ []) :
    ∃ p, videoPrimary efgDecode l = some p ∧ p ∈ l ∧
      (∀ x ∈ l, qualityScore efgDecode x ≤ qualityScore efgDecode p) ∧
      (videoUrlAll efgDecode l).length ≤ 5 ∧
      (videoUrlAll efgDecode l).Pairwise
        (fun a b => qualityScore efgDecode b ≤ qualityScore efgDecode a) ∧
      (videoUrlAll efgDecode l).head? = some p ∧
      (∀ x ∈ videoUrlAll efgDecode l, x ∈ l) ∧
      (sortByScoreDesc (qualityScore efgDecode) l).Perm l := by
  set score := qualityScore efgDecode with hscore
  have hperm := sortByScoreDesc_perm score l
  have hpair := sortByScoreDesc_pairwise score l
  match hs : sortByScoreDesc score l with
  | [] =>
    exact absurd (hperm.symm.trans (hs ▸ List.Perm.refl [])).eq_nil (by simpa using hne)
  | p :: rest =>
    rw [hs] at hperm hpair
    obtain ⟨hp_head, hp_rest⟩ := List.pairwise_cons.mp hpair
    refine ⟨p, ?_, ?_, ?_, ?_, ?_, ?_, ?_, hs ▸ hperm⟩
    · rw [videoPrimary, ← hscore, hs]
      rfl
    · exact hperm.mem_iff.mp (List.mem_cons_self _ _)
    · intro x hx
      rcases List.mem_cons.mp (hperm.mem_iff.mpr hx) with rfl | hx2
      · exact le_refl _
      · exact hp_head x hx2
    · rw [videoUrlAll, ← hscore, hs]
      exact List.length_take_le 5 (p :: rest)
    · rw [videoUrlAll, ← hscore, hs]
      exact hpair.sublist (List.take_sublist 5 _)
    · rw [videoUrlAll, ← hscore, hs]
      rfl
    · intro x hx
      rw [videoUrlAll, ← hscore, hs] at hx
      exact hperm.mem_iff.mp ((List.take_sublist 5 _).mem hx)

/-- Witness for `video_quality_ranking` at two concrete candidate URLs
(no `efg` decode; one `tag=…1080p`, one `bitrate=` fallback). -/
theorem video_quality_ranking_witness :
    ((["https://video-mad1-1.xx.fbcdn.net/v/t42.1790-2/a.mp4?bitrate=123456&n=1",
       "https://video-mad1-1.xx.fbcdn.net/v/t42.1790-2/b.mp4?tag=dash_vp9-basic-gen2_1080p"]
        : List String) ≠ []) ∧
    (∃ p, videoPrimary (fun _ => none)
        ["https://video-mad1-1.xx.fbcdn.net/v/t42.1790-2/a.mp4?bitrate=123456&n=1",
         "https://video-mad1-1.xx.fbcdn.net/v/t42.1790-2/b.mp4?tag=dash_vp9-basic-gen2_1080p"] = some p ∧
      p ∈ ["https://video-mad1-1.xx.fbcdn.net/v/t42.1790-2/a.mp4?bitrate=123456&n=1",
           "https://video-mad1-1.xx.fbcdn.net/v/t42.1790-2/b.mp4?tag=dash_vp9-basic-gen2_1080p"] ∧
      (∀ x ∈ ["https://video-mad1-1.xx.fbcdn.net/v/t42.1790-2/a.mp4?bitrate=123456&n=1",
              "https://video-mad1-1.xx.fbcdn.net/v/t42.1790-2/b.mp4?tag=dash_vp9-basic-gen2_1080p"],
        qualityScore (fun _ => none) x ≤ qualityScore (fun _ => none) p) ∧
      (videoUrlAll (fun _ => none)
        ["https://video-mad1-1.xx.fbcdn.net/v/t42.1790-2/a.mp4?bitrate=123456&n=1",
         "https://video-mad1-1.xx.fbcdn.net/v/t42.1790-2/b.mp4?tag=dash_vp9-basic-gen2_1080p"]).length ≤ 5 ∧
      (videoUrlAll (fun _ => none)
        ["https://video-mad1-1.xx.fbcdn.net/v/t42.1790-2/a.mp4?bitrate=123456&n=1",
         "https://video-mad1-1.xx.fbcdn.net/v/t42.1790-2/b.mp4?tag=dash_vp9-basic-gen2_1080p"]).Pairwise
        (fun a b => qualityScore (fun _ => none) b ≤ qualityScore (fun _ => none) a) ∧
      (videoUrlAll (fun _ => none)
        ["https://video-mad1-1.xx.fbcdn.net/v/t42.1790-2/a.mp4?bitrate=123456&n=1",
         "https://video-mad1-1.xx.fbcdn.net/v/t42.1790-2/b.mp4?tag=dash_vp9-basic-gen2_1080p"]).head? = some p ∧
      (∀ x ∈ videoUrlAll (fun _ => none)
        ["https://video-mad1-1.xx.fbcdn.net/v/t42.1790-2/a.mp4?bitrate=123456&n=1",
         "https://video-mad1-1.xx.fbcdn.net/v/t42.1790-2/b.mp4?tag=dash_vp9-basic-gen2_1080p"],
        x ∈ ["https://video-mad1-1.xx.fbcdn.net/v/t42.1790-2/a.mp4?bitrate=123456&n=1",
             "https://video-mad1-1.xx.fbcdn.net/v/t42.1790-2/b.mp4?tag=dash_vp9-basic-gen2_1080p"]) ∧
      (sortByScoreDesc (qualityScore (fun _ => none))
        ["https://video-mad1-1.xx.fbcdn.net/v/t42.1790-2/a.mp4?bitrate=123456&n=1",
         "https://video-mad1-1.xx.fbcdn.net/v/t42.1790-2/b.mp4?tag=dash_vp9-basic-gen2_1080p"]).Perm
        ["https://video-mad1-1.xx.fbcdn.net/v/t42.1790-2/a.mp4?bitrate=123456&n=1",
         "https://video-mad1-1.xx.fbcdn.net/v/t42.1790-2/b.mp4?tag=dash_vp9-basic-gen2_1080p"]) :=
  ⟨by decide, video_quality_ranking (fun _ => none) _ (by decide)⟩

/-! ### The reel fallback phase: AI merge and alternate surface
(reel.py lines 561-641, outer handler lines 757-764, ai_utils.py) -/

/-- A Python value as it occurs in `scraped_data` and in the AI response
dict during the fallback phase: an integer count or a string
(`True` is modelled as `vint 1`). -/
inductive PVal : Type
  | vint (n : Int)
  | vstr (s : String)
deriving DecidableEq

/-- `scraped_data` restricted to the keys the fallback phase reads and
writes, as a total map with Python's `.get(key, 0)` default built in. -/
def Store : Type := String → PVal

/-- A record with every metric count still at its 0 default. -/
def zeroStore : Store := fun _ => PVal.vint 0

/-- `scraped_data[k] = v`. -/
def updateStore (st : Store) (k : String) (v : PVal) : Store :=
  fun k2 => if k2 = k then v else st k2

/-- Python truthiness (`if val`). -/
def pvTruthy : PVal → Bool
  | .vint n => !(n == 0)
  | .vstr s => !(s == "")

/-- Python `val > 0`: defined for numbers, `TypeError` for strings. -/
def pvGtZero : PVal → Except Unit Bool
  | .vint n => .ok (decide (0 < n))
  | .vstr _ => .error ()

/-- Python `val == 0` on these values (a string never equals `0`). -/
def pvEqZeroB : PVal → Bool
  | .vint n => n == 0
  | .vstr _ => false

/-- Is the value an integer (a numeric AI response field)? -/
def isVInt : PVal → Bool
  | .vint _ => true
  | .vstr _ => false

/-- The four metric count fields of the resolved record. -/
def metricCountKeys : List String :=
  ["reactions_count", "comments_count", "shares_count", "views_count"]

/-- One iteration of the AI merge loop (reel.py lines 573-580):
`if val and val > 0:` then `if scraped_data.get(key, 0) == 0:` store the
value and set `scraped_data[f"{key}_ai_source"] = True`.  The `val > 0`
comparison raises `TypeError` when `val` is a (truthy) string. -/
def aiMergeStep (st : Store) (kv : String × PVal) : Except Unit Store :=
  if pvTruthy kv.2 then
    match pvGtZero kv.2 with
    | .error e => .error e
    | .ok b =>
      if b then
        if pvEqZeroB (st kv.1) then
          .ok (updateStore (updateStore st kv.1 kv.2) (kv.1 ++ "_ai_source") (.vint 1))
        else .ok st
      else .ok st
  else .ok st

/-- The AI merge loop `for key, val in ai_results.items():` over the
response items in order; an escaping `TypeError` aborts the whole
surrounding `try` of the run. -/
def aiMerge (st : Store) : List (String × PVal) → Except Unit Store
  | [] => .ok st
  | kv :: rest =>
    match aiMergeStep st kv with
    | .ok st2 => aiMerge st2 rest
    | .error e => .error e

/-- The AI-fallback trigger (reel.py lines 565-568): all of reactions,
comments and shares still 0, or views still 0. -/
def aiTrigger (st : Store) : Bool :=
  (pvEqZeroB (st "reactions_count") && pvEqZeroB (st "comments_count") &&
    pvEqZeroB (st "shares_count")) || pvEqZeroB (st "views_count")

/-- The collaborator requests the fallback phase can issue. -/
inductive FEvent : Type
  | aiRequested
  | altSurfaceRequested
deriving DecidableEq

/-- The AI fallback block (reel.py lines 561-584): when triggered, request
the AI collaborator and merge its response. -/
def aiPhase (st : Store) (items : List (String × PVal)) :
    List FEvent × Except Unit Store :=
  if aiTrigger st then ([FEvent.aiRequested], aiMerge st items) else ([], .ok st)

/-- Outcome of the alternate-surface block's fetch loop (reel.py lines
592-641): the collaborator navigation, visible-text re-extraction and
mobile regex scan are abstracted as an oracle yielding the first positive
normalized views value found (`none` when every attempt fails); only a
positive value is stored (the accompanying raw-text and provenance writes
touch no metric count key and are omitted). -/
def applyAltViews (st : Store) (alt : Option Nat) : Store :=
  match alt with
  | some v => if 0 < v then updateStore st "views_count" (.vint (v : Int)) else st
  | none => st

/-- The alternate-surface block (reel.py lines 586-641): runs exactly when
the views count is (still) 0. -/
def altPhase (st : Store) (alt : Option Nat) : List FEvent × Store :=
  if pvEqZeroB (st "views_count") then
    ([FEvent.altSurfaceRequested], applyAltViews st alt)
  else ([], st)

/-- The whole fallback phase in the order the code executes it: the AI
block first (lines 561-584), then the alternate-surface block (lines
586-641); an exception escaping the AI merge skips everything after it. -/
def fallbackPhase (st : Store) (items : List (String × PVal)) (alt : Option Nat) :
    List FEvent × Except Unit Store :=
  match aiPhase st items with
  | (e1, .error e) => (e1, .error e)
  | (e1, .ok st1) =>
    let (e2, st2) := altPhase st1 alt
    (e1 ++ e2, .ok st2)

/-- The status the caller receives (scrapers/base.py `format_error` vs the
success return, reel.py lines 757-764): an exception reaching the outer
handler yields an error-status result. -/
def runStatus (r : Except Unit Store) : String :=
  match r with
  | .error _ => "error"
  | .ok _ => "success"

/-- C3 (the failing input evaluated): with every metric still 0 the AI
fallback triggers; an AI response that follows the very format
ai_utils.py's prompt requests — numeric counts plus the textual
`source_summary` field — makes the merge loop evaluate
`"…" > 0`, a `TypeError` that no local handler catches, so the run
returns an error-status result instead of the best-effort success record
the spec promises. -/
theorem ai_nonnumeric_field_fatal :
    aiTrigger zeroStore = true ∧
    runStatus (fallbackPhase zeroStore
      [("views_count", PVal.vint 1200), ("confidence", PVal.vint 1),
       ("source_summary", PVal.vstr "counts found in og:title meta tag")] none).2 =
      "error" := by decide

theorem pvEqZeroB_true_iff {v : PVal} : pvEqZeroB v = true ↔ v = PVal.vint 0 := by
  cases v with
  | vint n => simp [pvEqZeroB]
  | vstr s => simp [pvEqZeroB]

theorem string_append_data (a b : String) : (a ++ b).data = a.data ++ b.data := by
  cases a; cases b; rfl

theorem ai_source_last (a : String) :
    (a ++ "_ai_source").data.reverse.head? = some 'e' := by
  rw [string_append_data, List.reverse_append]
  rfl

theorem ai_source_ne_metric (a k : String) (hk : k ∈ metricCountKeys) :
    a ++ "_ai_source" ≠ k := by
  intro heq
  have h1 := ai_source_last a
  rw [heq] at h1
  fin_cases hk <;> exact absurd h1 (by decide)

theorem aiMerge_int_spec :
    ∀ (items : List (String × PVal)) (st : Store),
    (∀ p ∈ items, isVInt p.2 = true) →
    ∃ st2, aiMerge st items = .ok st2 ∧
      ∀ k ∈ metricCountKeys,
        (¬ pvEqZeroB (st k) = true → st2 k = st k) ∧
        (st2 k ≠ st k → st k = PVal.vint 0 ∧
          ∃ m : Int, 0 < m ∧ st2 k = PVal.vint m ∧ (k, PVal.vint m) ∈ items) := by
  intro items
  induction items with
  | nil =>
    intro st _
    exact ⟨st, rfl, fun k _ => ⟨fun _ => rfl, fun h => absurd rfl h⟩⟩
  | cons kv rest ih =>
    intro st hint
    obtain ⟨a, v⟩ := kv
    have hrest : ∀ p ∈ rest, isVInt p.2 = true :=
      fun p hp => hint p (List.mem_cons_of_mem _ hp)
    have hv : isVInt v = true := hint (a, v) (List.mem_cons_self _ _)
    obtain ⟨m, rfl⟩ : ∃ m : Int, v = PVal.vint m := by
      cases v with
      | vint m => exact ⟨m, rfl⟩
      | vstr s => simp [isVInt] at hv
    by_cases htr : pvTruthy (PVal.vint m) = true
    · by_cases hpos : (0 : Int) < m
      · by_cases hz : pvEqZeroB (st a) = true
        · -- accepted: store the value and the provenance flag
          have hstep : aiMergeStep st (a, PVal.vint m) =
              .ok (updateStore (updateStore st a (PVal.vint m))
                (a ++ "_ai_source") (.vint 1)) := by
            simp [aiMergeStep, htr, pvGtZero, hpos, hz]
          set st1 := updateStore (updateStore st a (PVal.vint m))
            (a ++ "_ai_source") (.vint 1) with hst1
          obtain ⟨st2, hrun, hspec⟩ := ih st1 hrest
          refine ⟨st2, ?_, ?_⟩
          · rw [aiMerge, hstep]
            exact hrun
          · intro k hk
            have hks : k ≠ a ++ "_ai_source" := fun h => ai_source_ne_metric a k hk h.symm
            by_cases hka : k = a
            · subst hka
              have hst1k : st1 k = PVal.vint m := by
                simp [hst1, updateStore, hks]
              have hm0 : m ≠ 0 := by
                simp [pvTruthy] at htr
                exact htr
              constructor
              · intro hnz
                exact absurd hz hnz
              · intro _
                have hnz1 : ¬ pvEqZeroB (st1 k) = true := by
                  rw [hst1k]
                  simp [pvEqZeroB, hm0]
                have := (hspec k hk).1 hnz1
                rw [this, hst1k]
                exact ⟨pvEqZeroB_true_iff.mp hz, m, hpos, rfl,
                  List.mem_cons_self _ _⟩
            · have hst1k : st1 k = st k := by
                simp [hst1, updateStore, hks, hka]
              constructor
              · intro hnz
                rw [(hspec k hk).1 (hst1k ▸ hnz), hst1k]
              · intro hne
                have hne2 : st2 k ≠ st1 k := fun h => hne (h.trans hst1k)
                obtain ⟨hz2, m2, hm2, hv2, hmem⟩ := (hspec k hk).2 hne2
                exact ⟨hst1k ▸ hz2, m2, hm2, hv2, List.mem_cons_of_mem _ hmem⟩
        · -- current count non-zero: untouched
          have hstep : aiMergeStep st (a, PVal.vint m) = .ok st := by
            simp [aiMergeStep, htr, pvGtZero, hpos, hz]
          obtain ⟨st2, hrun, hspec⟩ := ih st hrest
          refine ⟨st2, by rw [aiMerge, hstep]; exact hrun, ?_⟩
          intro k hk
          refine ⟨(hspec k hk).1, fun hne => ?_⟩
          obtain ⟨hz2, m2, hm2, hv2, hmem⟩ := (hspec k hk).2 hne
          exact ⟨hz2, m2, hm2, hv2, List.mem_cons_of_mem _ hmem⟩
      · have hstep : aiMergeStep st (a, PVal.vint m) = .ok st := by
          simp [aiMergeStep, htr, pvGtZero, hpos]
        obtain ⟨st2, hrun, hspec⟩ := ih st hrest
        refine ⟨st2, by rw [aiMerge, hstep]; exact hrun, ?_⟩
        intro k hk
        refine ⟨(hspec k hk).1, fun hne => ?_⟩
        obtain ⟨hz2, m2, hm2, hv2, hmem⟩ := (hspec k hk).2 hne
        exact ⟨hz2, m2, hm2, hv2, List.mem_cons_of_mem _ hmem⟩
    · have hstep : aiMergeStep st (a, PVal.vint m) = .ok st := by
        simp only [aiMergeStep]
        rw [if_neg htr]
      obtain ⟨st2, hrun, hspec⟩ := ih st hrest
      refine ⟨st2, by rw [aiMerge, hstep]; exact hrun, ?_⟩
      intro k hk
      refine ⟨(hspec k hk).1, fun hne => ?_⟩
      obtain ⟨hz2, m2, hm2, hv2, hmem⟩ := (hspec k hk).2 hne
      exact ⟨hz2, m2, hm2, hv2, List.mem_cons_of_mem _ hmem⟩

/-- C5: over any numeric AI response, the AI merge step accepts a returned
metric only when that metric's current count is 0 and the returned value is
strictly positive — every metric count that is nonzero going in comes out
unchanged, and any changed metric count was 0 and now carries a strictly
positive value taken from the response. -/
theorem ai_merge_frame (st : Store) (items : List (String × PVal))
    (hint : ∀ p ∈ items, isVInt p.2 = true) :
    ∃ st2, aiMerge st items = .ok st2 ∧
      (∀ k ∈ metricCountKeys, ¬ pvEqZeroB (st k) = true → st2 k = st k) ∧
      (∀ k ∈ metricCountKeys, st2 k ≠ st k → st k = PVal.vint 0 ∧
        ∃ m : Int, 0 < m ∧ st2 k = PVal.vint m ∧ (k, PVal.vint m) ∈ items) := by
  obtain ⟨st2, hrun, hspec⟩ := aiMerge_int_spec items st hint
  exact ⟨st2, hrun, fun k hk => (hspec k hk).1, fun k hk => (hspec k hk).2⟩

/-- Witness for `ai_merge_frame`: a locally resolved `reactions_count = 7`
survives an AI response that tries to overwrite it, while `views_count`
(still 0) is accepted. -/
theorem ai_merge_frame_witness :
    (∀ p ∈ ([("reactions_count", PVal.vint 99), ("views_count", PVal.vint 5)] :
        List (String × PVal)), isVInt p.2 = true) ∧
    (∃ st2, aiMerge (updateStore zeroStore "reactions_count" (PVal.vint 7))
        [("reactions_count", PVal.vint 99), ("views_count", PVal.vint 5)] = .ok st2 ∧
      (∀ k ∈ metricCountKeys,
        ¬ pvEqZeroB (updateStore zeroStore "reactions_count" (PVal.vint 7) k) = true →
        st2 k = updateStore zeroStore "reactions_count" (PVal.vint 7) k) ∧
      (∀ k ∈ metricCountKeys,
        st2 k ≠ updateStore zeroStore "reactions_count" (PVal.vint 7) k →
        updateStore zeroStore "reactions_count" (PVal.vint 7) k = PVal.vint 0 ∧
        ∃ m : Int, 0 < m ∧ st2 k = PVal.vint m ∧
          (k, PVal.vint m) ∈ ([("reactions_count", PVal.vint 99),
            ("views_count", PVal.vint 5)] : List (String × PVal)))) :=
  ⟨by decide, ai_merge_frame _ _ (by decide)⟩

/-- C4 counterexample: a record with `views_count = 500` but zero
reactions/comments/shares still triggers the AI escalation (the claim says
escalation happens exactly when views is 0), and on a fully-zero record the
first collaborator request is the AI inference, followed by the
alternate-surface fetch (the claim says the alternate surface comes first
and the AI only afterwards). -/
theorem escalation_trigger_order_cex :
    pvEqZeroB (updateStore zeroStore "views_count" (PVal.vint 500) "views_count") = false ∧
    (fallbackPhase (updateStore zeroStore "views_count" (PVal.vint 500)) [] none).1 =
      [FEvent.aiRequested] ∧
    (fallbackPhase zeroStore [] none).1 =
      [FEvent.aiRequested, FEvent.altSurfaceRequested] := by decide

/-- C4 (amended): for any numeric AI response, the fallback phase requests
the AI collaborator exactly when reactions, comments and shares are all 0
or views is 0; it requests the alternate-surface fetch exactly when the
views count is still 0 after the AI merge; and the emitted request sequence
is always one of `[]`, `[AI]`, `[AI, alternate-surface]` — the AI request,
when present, always precedes the alternate-surface request. -/
theorem escalation_trigger_order_amended (st : Store)
    (items : List (String × PVal)) (alt : Option Nat)
    (hint : ∀ p ∈ items, isVInt p.2 = true) :
    ∃ st1, (aiTrigger st = true → aiMerge st items = .ok st1) ∧
      (aiTrigger st = false → st1 = st) ∧
      (FEvent.aiRequested ∈ (fallbackPhase st items alt).1 ↔
        ((pvEqZeroB (st "reactions_count") && pvEqZeroB (st "comments_count") &&
          pvEqZeroB (st "shares_count")) || pvEqZeroB (st "views_count")) = true) ∧
      (FEvent.altSurfaceRequested ∈ (fallbackPhase st items alt).1 ↔
        pvEqZeroB (st1 "views_count") = true) ∧
      ((fallbackPhase st items alt).1 = [] ∨
       (fallbackPhase st items alt).1 = [FEvent.aiRequested] ∨
       (fallbackPhase st items alt).1 = [FEvent.aiRequested, FEvent.altSurfaceRequested]) := by
  obtain ⟨st2, hrun, _⟩ := aiMerge_int_spec items st hint
  by_cases htr : aiTrigger st = true
  · refine ⟨st2, fun _ => hrun, fun hf => absurd htr (by simp [hf]), ?_⟩
    have hphase : aiPhase st items = ([FEvent.aiRequested], .ok st2) := by
      rw [aiPhase, if_pos htr, hrun]
    by_cases hz : pvEqZeroB (st2 "views_count") = true
    · have : fallbackPhase st items alt =
          ([FEvent.aiRequested, FEvent.altSurfaceRequested],
            .ok (applyAltViews st2 alt)) := by
        rw [fallbackPhase, hphase]
        simp [altPhase, hz]
      rw [this]
      refine ⟨by simp [aiTrigger] at htr; simpa [aiTrigger] using htr, ?_, ?_⟩
      · simp [hz]
      · right; right; rfl
    · have : fallbackPhase st items alt = ([FEvent.aiRequested], .ok st2) := by
        rw [fallbackPhase, hphase]
        simp [altPhase, hz]
      rw [this]
      refine ⟨by simp [aiTrigger] at htr; simpa [aiTrigger] using htr, ?_, ?_⟩
      · simp [hz]
      · right; left; rfl
  · have htrf : aiTrigger st = false := by simpa using htr
    refine ⟨st, fun h => absurd h htr, fun _ => rfl, ?_⟩
    have hphase : aiPhase st items = ([], .ok st) := by
      rw [aiPhase, if_neg htr]
    have hz : pvEqZeroB (st "views_count") = false := by
      have := htrf
      simp [aiTrigger] at this
      exact this.2
    have : fallbackPhase st items alt = ([], .ok st) := by
      rw [fallbackPhase, hphase]
      simp [altPhase, hz]
    rw [this]
    refine ⟨?_, ?_, Or.inl rfl⟩
    · have hrfl : ((pvEqZeroB (st "reactions_count") && pvEqZeroB (st "comments_count") &&
          pvEqZeroB (st "shares_count")) || pvEqZeroB (st "views_count")) = false := htrf
      simp [hrfl]
    · simp [hz]

/-- Witness for `escalation_trigger_order_amended` on a fully-zero record
with a numeric AI response carrying `views_count = 7`. -/
theorem escalation_trigger_order_witness :
    (∀ p ∈ ([("views_count", PVal.vint 7)] : List (String × PVal)),
      isVInt p.2 = true) ∧
    (∃ st1, (aiTrigger zeroStore = true →
        aiMerge zeroStore [("views_count", PVal.vint 7)] = .ok st1) ∧
      (aiTrigger zeroStore = false → st1 = zeroStore) ∧
      (FEvent.aiRequested ∈ (fallbackPhase zeroStore
          [("views_count", PVal.vint 7)] none).1 ↔
        ((pvEqZeroB (zeroStore "reactions_count") &&
          pvEqZeroB (zeroStore "comments_count") &&
          pvEqZeroB (zeroStore "shares_count")) ||
          pvEqZeroB (zeroStore "views_count")) = true) ∧
      (FEvent.altSurfaceRequested ∈ (fallbackPhase zeroStore
          [("views_count", PVal.vint 7)] none).1 ↔
        pvEqZeroB (st1 "views_count") = true) ∧
      ((fallbackPhase zeroStore [("views_count", PVal.vint 7)] none).1 = [] ∨
       (fallbackPhase zeroStore [("views_count", PVal.vint 7)] none).1 =
         [FEvent.aiRequested] ∨
       (fallbackPhase zeroStore [("views_count", PVal.vint 7)] none).1 =
         [FEvent.aiRequested, FEvent.altSurfaceRequested])) :=
  ⟨by decide, escalation_trigger_order_amended zeroStore _ none (by decide)⟩

end OBScrap
